import Mathlib

/-!
Shallow embedding of the rolling_up monthly-metrics core.

Two parts are embedded.  The label-lookup helpers are translated directly
from `core/i18n.py`: the on-disk locale documents are modelled as an
explicit mapping from language codes to parsed nested dictionaries, and the
legacy combined YAML document as one such dictionary.  The statistical
entry points (`forecast_linear_band`, `forecast_holt_linear`,
`band_from_moving_stats`, `detect_linear_anomalies`, `detect_ts_anomalies`)
live in a `services` module that is not part of the visible sources (only
their test suite is), so they are modelled from the specification, section
by section; real numbers stand for the Python floats, so every value is
finite and arithmetic is exact.
-/

namespace RollingUp

/-! ## Label lookup, from `core/i18n.py` -/

/-- A parsed JSON/YAML value as the lookup code distinguishes them:
a string leaf, a nested dictionary (insertion-ordered, as Python dicts
are), or any other value (number, list, boolean, null). -/
inductive LocaleValue where
  | str (s : String)
  | dict (entries : List (String × LocaleValue))
  | other

/-- A parsed top-level document: `core/i18n.py` treats any non-dict
document as the empty dict, so the top level is always a dictionary. -/
abbrev LocaleDict := List (String × LocaleValue)

/-- The locale directory, as a total map from language code to the parsed
per-language document; a missing or empty `language.json` file is the
empty dictionary, exactly how `_load_locale` degrades. -/
abbrev Locales := String → LocaleDict

/-- `DEFAULT_LANGUAGE = "ja"` in `core/i18n.py`. -/
def DEFAULT_LANGUAGE : String := "ja"

/-- Split a character list at every occurrence of `sep`, keeping empty
segments, so that the induced split on strings agrees with the Python
`str.split` used by `_resolve_from_dict` (`"" ↦ [""]`, `"a..b" ↦
["a", "", "b"]`). -/
def splitOnChar (sep : Char) : List Char → List (List Char)
  | [] => [[]]
  | c :: cs =>
      let rest := splitOnChar sep cs
      if c = sep then [] :: rest
      else
        match rest with
        | r :: rs => (c :: r) :: rs
        | [] => [[c]]

/-- The dotted-key components: `key.split(".")` from `_resolve_from_dict`. -/
def keyParts (key : String) : List String :=
  (splitOnChar '.' key.toList).map String.mk

/-- The walk inside `_resolve_from_dict`: follow each path component while
the current value is a dictionary containing it, else give up. -/
def resolveSteps : LocaleValue → List String → Option LocaleValue
  | v, [] => some v
  | LocaleValue.dict es, p :: ps =>
      match es.lookup p with
      | some v => resolveSteps v ps
      | none => none
  | _, _ :: _ => none

/-- `_resolve_from_dict(node, key)`: resolve a dotted key path inside a
nested dictionary; the result may be any value, not only a string. -/
def resolve_from_dict (node : LocaleDict) (key : String) : Option LocaleValue :=
  resolveSteps (LocaleValue.dict node) (keyParts key)

/-- `_resolve_from_locale(language, key)`: an empty (or missing) locale
document yields nothing, otherwise resolve the dotted key in it. -/
def resolve_from_locale (locales : Locales) (language key : String) :
    Option LocaleValue :=
  if (locales language).isEmpty then none
  else resolve_from_dict (locales language) key

/-- `_resolve_from_legacy(key)` against the legacy combined document. -/
def resolve_from_legacy (legacy : LocaleDict) (key : String) :
    Option LocaleValue :=
  if legacy.isEmpty then none else resolve_from_dict legacy key

/-- The accumulator loop of `_fallback_sequence`: keep each code that is
non-empty and not yet seen, in order. -/
def fallbackAcc : List String → List String → List String
  | [], acc => acc
  | c :: cs, acc =>
      if c ≠ "" ∧ c ∉ acc then fallbackAcc cs (acc ++ [c]) else fallbackAcc cs acc

/-- `_fallback_sequence(preferred)`: the deduplicated chain
`[preferred, DEFAULT_LANGUAGE, "en"]`. -/
def fallback_sequence (preferred : String) : List String :=
  fallbackAcc [preferred, DEFAULT_LANGUAGE, "en"] []

/-- The locale loop of `translate`: try each candidate language in order;
a string value is returned, a non-string value ABORTS the loop (the
`break` in the source), an unresolved key moves to the next candidate. -/
def localePhase (locales : Locales) (key : String) : List String → Option String
  | [] => none
  | c :: cs =>
      match resolve_from_locale locales c key with
      | some (LocaleValue.str s) => some s
      | some _ => none
      | none => localePhase locales key cs

/-- The candidate loop over a legacy per-key dictionary in `translate`:
the first fallback language whose entry is a string. -/
def firstLegacyCandidate (d : LocaleDict) : List String → Option String
  | [] => none
  | c :: cs =>
      match d.lookup c with
      | some (LocaleValue.str s) => some s
      | _ => firstLegacyCandidate d cs

/-- The values loop over a legacy per-key dictionary in `translate`:
the first string value, in insertion order. -/
def firstStrValue : LocaleDict → Option String
  | [] => none
  | (_, LocaleValue.str s) :: _ => some s
  | _ :: rest => firstStrValue rest

/-- The legacy part of `translate`: a per-key dictionary is searched by
fallback language and then by value order, a plain string is returned as
is, anything else yields nothing. -/
def legacyPhase (legacy : LocaleDict) (lang key : String) : Option String :=
  match resolve_from_legacy legacy key with
  | some (LocaleValue.dict d) =>
      match firstLegacyCandidate d (fallback_sequence lang) with
      | some s => some s
      | none => firstStrValue d
  | some (LocaleValue.str s) => some s
  | _ => none

/-- `translate(key, language=lang, default=dflt)` from `core/i18n.py`,
with the loaded documents passed explicitly and the language already
resolved (the session-state lookup of the current language is UI glue
outside this embedding). -/
def translate (locales : Locales) (legacy : LocaleDict) (key lang : String)
    (dflt : Option String) : String :=
  match localePhase locales key (fallback_sequence lang) with
  | some s => s
  | none =>
      match legacyPhase legacy lang key with
      | some s => s
      | none => dflt.getD key

/-- The locale scan exactly as the specification words it: return the
FIRST STRING found anywhere along the fallback chain, never abandoning
the chain early.  This is the comparison point for the chain claim, not a
translation of the source. -/
def localeFirstString (locales : Locales) (key : String) :
    List String → Option String
  | [] => none
  | c :: cs =>
      match resolve_from_locale locales c key with
      | some (LocaleValue.str s) => some s
      | _ => localeFirstString locales key cs

/-- The whole lookup as the specification words it: first string along the
chain, then the legacy document, then the raw key. -/
def translateClaim (locales : Locales) (legacy : LocaleDict)
    (key lang : String) : String :=
  match localeFirstString locales key (fallback_sequence lang) with
  | some s => s
  | none =>
      match legacyPhase legacy lang key with
      | some s => s
      | none => key

/-- The first language of a chain whose document resolves the key at all,
together with the resolved value; used to state what the source loop
actually computes. -/
def firstResolved (locales : Locales) (key : String) :
    List String → Option LocaleValue
  | [] => none
  | c :: cs =>
      match resolve_from_locale locales c key with
      | some v => some v
      | none => firstResolved locales key cs

/-- Whether a value is a string leaf. -/
def isStr : LocaleValue → Bool
  | LocaleValue.str _ => true
  | _ => false

/-- No language along the fallback chain resolves the key to a string. -/
def localeChainHasNoString (locales : Locales) (key lang : String) : Bool :=
  (fallback_sequence lang).all fun c =>
    match resolve_from_locale locales c key with
    | some v => ! isStr v
    | none => true

/-- The legacy document holds no string translation for the key: the key
resolves to no string, and when it resolves to a per-key dictionary, none
of the dictionary values is a string. -/
def legacyHasNoString (legacy : LocaleDict) (key : String) : Bool :=
  match resolve_from_legacy legacy key with
  | some (LocaleValue.str _) => false
  | some (LocaleValue.dict d) => d.all fun p => ! isStr p.2
  | _ => true

/-- A locale family in which the requested language resolves the key to a
nested dictionary while English holds a plain string for it; it separates
the source loop from the first-string-in-chain reading. -/
def cexLocales : Locales := fun l =>
  if l = "ja" then [("a", LocaleValue.dict [("x", LocaleValue.str "v")])]
  else if l = "en" then [("a", LocaleValue.str "hello")]
  else []

end RollingUp

namespace RollingUp

/-! ## The statistical core, modelled from the specification -/

noncomputable section

/-- Modelled from the spec: the last `window` observations of a series,
used by the band forecasters (the `services` module itself is absent from
the sources). -/
def lastWindow {α : Type} (series : List α) (window : ℕ) : List α :=
  series.drop (series.length - window)

/-- Map a function of position and value over a list, indices running from
the given start; the embedding of enumerate-style loops. -/
def idxMap (f : ℕ → ℝ → ℝ) : ℕ → List ℝ → List ℝ
  | _, [] => []
  | i, y :: ys => f i y :: idxMap f (i + 1) ys

/-- Modelled from the spec: population variance of a list of values (the
fixed ddof = 0 convention the spec asks to document); the empty list has
variance zero. -/
def popVar (xs : List ℝ) : ℝ :=
  (xs.map fun x => (x - xs.sum / (xs.length : ℝ)) ^ 2).sum / (xs.length : ℝ)

/-- Modelled from the spec: the least-squares slope of `y = a + b*x` over
`x = 0, 1, ..., n-1` (section 4.1); the `services` module is absent from
the sources. -/
def olsSlope (ys : List ℝ) : ℝ :=
  let xbar := ((ys.length : ℝ) - 1) / 2
  let ybar := ys.sum / (ys.length : ℝ)
  (idxMap (fun i y => ((i : ℝ) - xbar) * (y - ybar)) 0 ys).sum
    / (idxMap (fun i _ => ((i : ℝ) - xbar) ^ 2) 0 ys).sum

/-- Modelled from the spec: the least-squares intercept matching
`olsSlope`. -/
def olsIntercept (ys : List ℝ) : ℝ :=
  ys.sum / (ys.length : ℝ) - olsSlope ys * (((ys.length : ℝ) - 1) / 2)

/-- Modelled from the spec: in-window fit residuals `y_i - (a + b*i)` of
the least-squares line. -/
def fitResiduals (ys : List ℝ) : List ℝ :=
  idxMap (fun i y => y - (olsIntercept ys + olsSlope ys * (i : ℝ))) 0 ys

/-- Modelled from the spec, section 4.1: the point forecasts of the fitted
line, `a + b*(window-1+h)` for `h = 1..horizon`. -/
def linForecasts (ys : List ℝ) (window horizon : ℕ) : List ℝ :=
  (List.range horizon).map fun h : ℕ =>
    olsIntercept ys + olsSlope ys * ((window : ℝ) - 1 + ((h : ℝ) + 1))

/-- Modelled from the spec, section 4.1: the band half-width, `k` times
the standard deviation of the in-window fit residuals. -/
def bandHalfWidth (ys : List ℝ) (k : ℝ) : ℝ :=
  k * Real.sqrt (popVar (fitResiduals ys))

/-- Modelled from the spec, section 4.1: `forecast_linear_band(series,
window, horizon, k)`.  The function is absent from the sources; per the
spec it validates `2 <= window <= len(series)`, `horizon >= 1`, `k >= 0`
and finiteness of the window (a `none` entry models a non-finite float),
fits a line over the last `window` points, forecasts `a + b*(window-1+h)`
for `h = 1..horizon`, and puts the band at `k` times the standard
deviation of the in-window fit residuals on both sides. -/
def forecast_linear_band (series : List (Option ℝ)) (window horizon : ℕ)
    (k : ℝ) : Except String (List ℝ × List ℝ × List ℝ) :=
  if window < 2 then Except.error "window must be at least 2"
  else if series.length < window then Except.error "window exceeds series length"
  else if horizon < 1 then Except.error "horizon must be at least 1"
  else if k < 0 then Except.error "k must be nonnegative"
  else if (lastWindow series window).any (fun v => v.isNone) then
    Except.error "non-finite value in window"
  else
    Except.ok (linForecasts ((lastWindow series window).reduceOption) window horizon,
      (linForecasts ((lastWindow series window).reduceOption) window horizon).map
        (fun x => x - bandHalfWidth ((lastWindow series window).reduceOption) k),
      (linForecasts ((lastWindow series window).reduceOption) window horizon).map
        (fun x => x + bandHalfWidth ((lastWindow series window).reduceOption) k))

/-- Modelled from the spec, section 4.2: the level/trend recursion of the
Holt linear method, written exactly as the spec states it: from `(L, T)`,
an observation `y` gives level `alpha*y + (1-alpha)*(L+T)` and trend
`beta*(Lnew-L) + (1-beta)*T`. -/
def holtPair (alpha beta : ℝ) : ℝ × ℝ → List ℝ → ℝ × ℝ
  | LT, [] => LT
  | LT, y :: ys =>
      let Ln := alpha * y + (1 - alpha) * (LT.1 + LT.2)
      holtPair alpha beta (Ln, beta * (Ln - LT.1) + (1 - beta) * LT.2) ys

/-- Modelled from the spec, section 4.2: `forecast_holt_linear(series,
alpha, beta, horizon)`; absent from the sources.  Requires at least two
points and unit-interval smoothing factors, initializes the level to the
first observation and the trend to the first difference, folds the Holt
recursion over the observations from the second one on, and forecasts
`L + h*T` for `h = 1..horizon`.  Point forecasts only, no band. -/
def forecast_holt_linear (series : List ℝ) (alpha beta : ℝ) (horizon : ℕ) :
    Except String (List ℝ) :=
  match series with
  | [] => Except.error "series must contain at least two points"
  | [_] => Except.error "series must contain at least two points"
  | y0 :: y1 :: rest =>
      if alpha < 0 ∨ 1 < alpha ∨ beta < 0 ∨ 1 < beta then
        Except.error "smoothing factors must lie in the unit interval"
      else
        Except.ok ((List.range horizon).map fun h : ℕ =>
          ((y1 :: rest).foldl
            (fun LT y =>
              let Ln := alpha * y + (1 - alpha) * (LT.1 + LT.2)
              (Ln, beta * (Ln - LT.1) + (1 - beta) * LT.2))
            (y0, y1 - y0)).1 +
          ((h : ℝ) + 1) *
          ((y1 :: rest).foldl
            (fun LT y =>
              let Ln := alpha * y + (1 - alpha) * (LT.1 + LT.2)
              (Ln, beta * (Ln - LT.1) + (1 - beta) * LT.2))
            (y0, y1 - y0)).2)

/-- Modelled from the spec, section 4.3: the mean of a window. -/
def movingMean (ws : List ℝ) : ℝ :=
  ws.sum / (ws.length : ℝ)

/-- Modelled from the spec, section 4.3: `band_from_moving_stats(series,
window, horizon, k)`; absent from the sources.  Validates
`2 <= window <= len(series)`, forecasts the mean of the last `window`
observations flat over the horizon, with band half-width `k` times the
(population) standard deviation of the same window. -/
def band_from_moving_stats (series : List ℝ) (window horizon : ℕ) (k : ℝ) :
    Except String (List ℝ × List ℝ × List ℝ) :=
  if window < 2 then Except.error "window must be at least 2"
  else if series.length < window then Except.error "window exceeds series length"
  else
    Except.ok
      (List.replicate horizon (movingMean (lastWindow series window)),
        List.replicate horizon (movingMean (lastWindow series window) -
          k * Real.sqrt (popVar (lastWindow series window))),
        List.replicate horizon (movingMean (lastWindow series window) +
          k * Real.sqrt (popVar (lastWindow series window))))

/-- Insert a value into an already sorted list of reals. -/
def insertLe (x : ℝ) : List ℝ → List ℝ
  | [] => [x]
  | y :: ys => if x ≤ y then x :: y :: ys else y :: insertLe x ys

/-- Insertion sort on reals, for the median. -/
def sortLe : List ℝ → List ℝ
  | [] => []
  | x :: xs => insertLe x (sortLe xs)

/-- Modelled from the spec: the median of a list of values (zero for the
empty list), the robust location estimate behind the MAD. -/
def median (xs : List ℝ) : ℝ :=
  let s := sortLe xs
  let n := xs.length
  if n = 0 then 0
  else if n % 2 = 1 then s.getD (n / 2) 0
  else (s.getD (n / 2 - 1) 0 + s.getD (n / 2) 0) / 2

/-- Modelled from the spec: the median absolute deviation from the
median, the robust dispersion estimate of sections 4.4 to 4.6. -/
def mad (xs : List ℝ) : ℝ :=
  median (xs.map fun x => |x - median xs|)

/-- One row of the anomaly table: month (positional index), observed and
expected values, residual and score. -/
structure AnomalyRecord where
  month : ℕ
  observed : ℝ
  expected : ℝ
  residual : ℝ
  score : ℝ

/-- Modelled from the spec, section 4.4: the dispersion scale of a fit
window: standard deviation of the in-window fit residuals, or the MAD
scaled by the normal-consistency factor 1.4826 in robust mode. -/
def linScale (ws : List ℝ) (robust : Bool) : ℝ :=
  if robust then 1.4826 * mad (fitResiduals ws) else Real.sqrt (popVar (fitResiduals ws))

/-- Modelled from the spec, section 4.4: the `window` points strictly
before position `t`. -/
def windowBefore (series : List ℝ) (window t : ℕ) : List ℝ :=
  (series.take t).drop (t - window)

/-- Modelled from the spec, section 4.4: the one-step extrapolation of the
line fitted over the window preceding `t`, evaluated at `x = window`. -/
def linExpectedAt (series : List ℝ) (window t : ℕ) : ℝ :=
  olsIntercept (windowBefore series window t) +
    olsSlope (windowBefore series window t) * (window : ℝ)

/-- Modelled from the spec, section 4.4: `residual = actual - expected`
at point `t`. -/
def linResidualAt (series : List ℝ) (window t : ℕ) : ℝ :=
  series.getD t 0 - linExpectedAt series window t

/-- Modelled from the spec, section 4.4: the evaluation of one point `t`
by `detect_linear_anomalies`: for `t >= window`, fit a line over the
preceding `window` points, extrapolate one step to `x = window`, score
the residual against the window scale, and flag strictly above the
threshold; a zero scale never flags. -/
def linProbe (series : List ℝ) (window : ℕ) (threshold : ℝ) (robust : Bool)
    (t : ℕ) : Option AnomalyRecord :=
  if t < window then none
  else if linScale (windowBefore series window t) robust = 0 then none
  else if threshold <
      |linResidualAt series window t| / linScale (windowBefore series window t) robust then
    some ⟨t, series.getD t 0, linExpectedAt series window t,
      linResidualAt series window t,
      |linResidualAt series window t| / linScale (windowBefore series window t) robust⟩
  else none

/-- Modelled from the spec, section 4.4: `detect_linear_anomalies(series,
window, threshold, robust)`; absent from the sources.  Every position of
the series is probed in chronological order; the month labels of the
model are the positional indices, as in the test suite. -/
def detect_linear_anomalies (series : List ℝ) (window : ℕ) (threshold : ℝ)
    (robust : Bool) : List AnomalyRecord :=
  (List.range series.length).filterMap (linProbe series window threshold robust)

/-- Modelled from the spec, sections 4.5 and 4.6: score a residual series
against the robust MAD scale; a zero scale yields no anomalies at all. -/
def scoreResiduals (series : List ℝ) (resids : List ℝ) (threshold : ℝ) :
    List AnomalyRecord :=
  if 1.4826 * mad resids = 0 then []
  else
    (List.range resids.length).filterMap fun i =>
      if threshold < |resids.getD i 0| / (1.4826 * mad resids) then
        some ⟨i, series.getD i 0, series.getD i 0 - resids.getD i 0,
          resids.getD i 0, |resids.getD i 0| / (1.4826 * mad resids)⟩
      else none

/-- Modelled from the spec, sections 4.5 and 4.6: `detect_ts_anomalies`;
absent from the sources.  The STL or ARIMA residual extraction is numeric
library code, modelled as an abstract fitter that may fail (`none` stands
for non-convergence or a degenerate series); a series shorter than two
seasonal periods, or a failed fit, degrades to the empty table. -/
def detect_ts_anomalies (fitResid : List ℝ → Option (List ℝ))
    (series : List ℝ) (threshold : ℝ) (seasonal_periods : ℕ) :
    List AnomalyRecord :=
  if series.length < 2 * seasonal_periods then []
  else
    match fitResid series with
    | none => []
    | some rs => scoreResiduals series rs threshold

end

/-! ## Helper lemmas -/

theorem lookup_mem {es : LocaleDict} {k : String} {v : LocaleValue}
    (h : es.lookup k = some v) : (k, v) ∈ es := by
  induction es with
  | nil => simp [List.lookup] at h
  | cons p rest ih =>
      rw [List.lookup] at h
      split at h
      · next heq =>
          cases h
          have : k = p.1 := by simpa using heq
          subst this
          exact List.mem_cons_self _ _
      · exact List.mem_cons_of_mem _ (ih h)

theorem localePhase_none {locales : Locales} {key : String} :
    ∀ {chain : List String},
      (∀ c ∈ chain, ∀ s, resolve_from_locale locales c key ≠ some (LocaleValue.str s)) →
      localePhase locales key chain = none := by
  intro chain
  induction chain with
  | nil => intro _; rfl
  | cons c cs ih =>
      intro h
      simp only [localePhase]
      cases hr : resolve_from_locale locales c key with
      | none => exact ih fun d hd => h d (List.mem_cons_of_mem _ hd)
      | some v =>
          cases v with
          | str s => exact absurd hr (h c (List.mem_cons_self _ _) s)
          | dict es => rfl
          | other => rfl

theorem firstLegacyCandidate_none {d : LocaleDict}
    (h : ∀ p ∈ d, isStr p.2 = false) :
    ∀ cands, firstLegacyCandidate d cands = none := by
  intro cands
  induction cands with
  | nil => rfl
  | cons c cs ih =>
      simp only [firstLegacyCandidate]
      cases hl : d.lookup c with
      | none => exact ih
      | some v =>
          cases v with
          | str s =>
              have hm := h (c, LocaleValue.str s) (lookup_mem hl)
              simp [isStr] at hm
          | dict es => exact ih
          | other => exact ih

theorem firstStrValue_none {d : LocaleDict}
    (h : ∀ p ∈ d, isStr p.2 = false) : firstStrValue d = none := by
  induction d with
  | nil => rfl
  | cons p rest ih =>
      obtain ⟨a, v⟩ := p
      cases v with
      | str s =>
          have hm := h (a, LocaleValue.str s) (List.mem_cons_self _ _)
          simp [isStr] at hm
      | dict es =>
          simp only [firstStrValue]
          exact ih fun q hq => h q (List.mem_cons_of_mem _ hq)
      | other =>
          simp only [firstStrValue]
          exact ih fun q hq => h q (List.mem_cons_of_mem _ hq)

theorem legacyPhase_none (lang : String) {legacy : LocaleDict} {key : String}
    (h : legacyHasNoString legacy key = true) :
    legacyPhase legacy lang key = none := by
  unfold legacyPhase
  unfold legacyHasNoString at h
  cases hr : resolve_from_legacy legacy key with
  | none => rfl
  | some v =>
      cases v with
      | str s => rw [hr] at h; simp at h
      | dict d =>
          rw [hr] at h
          have hall : ∀ p ∈ d, isStr p.2 = false := by
            intro p hp
            have := List.all_eq_true.mp h p hp
            simpa using this
          simp only [firstLegacyCandidate_none hall, firstStrValue_none hall]
      | other => rfl

theorem popVar_of_zero {xs : List ℝ} (h : ∀ x ∈ xs, x = 0) : popVar xs = 0 := by
  unfold popVar
  have hs : xs.sum = 0 := List.sum_eq_zero h
  have hm : (xs.map fun x => (x - xs.sum / (xs.length : ℝ)) ^ 2).sum = 0 := by
    apply List.sum_eq_zero
    intro y hy
    obtain ⟨x, hx, rfl⟩ := List.mem_map.mp hy
    rw [h x hx, hs]
    ring
  rw [hm, zero_div]

theorem holt_foldl_eq (alpha beta : ℝ) :
    ∀ (ys : List ℝ) (LT : ℝ × ℝ),
      ys.foldl (fun LT y =>
        let Ln := alpha * y + (1 - alpha) * (LT.1 + LT.2)
        (Ln, beta * (Ln - LT.1) + (1 - beta) * LT.2)) LT =
        holtPair alpha beta LT ys := by
  intro ys
  induction ys with
  | nil => intro LT; rfl
  | cons y ys ih =>
      intro LT
      simp only [List.foldl, holtPair]
      exact ih _

theorem linProbe_month {series : List ℝ} {window : ℕ} {threshold : ℝ}
    {robust : Bool} {t : ℕ} {rec : AnomalyRecord}
    (h : linProbe series window threshold robust t = some rec) :
    rec.month = t := by
  unfold linProbe at h
  split_ifs at h with h1 h2 h3
  cases h
  rfl

theorem linProbe_of_scale_zero {series : List ℝ} {window : ℕ} {threshold : ℝ}
    {robust : Bool} {t : ℕ}
    (h : linScale (windowBefore series window t) robust = 0) :
    linProbe series window threshold robust t = none := by
  unfold linProbe
  split_ifs
  · rfl
  · rfl

theorem reduceOption_linear_example :
    ((lastWindow [some (1 : ℝ), some 2, some 3, some 4, some 5, some 6] 6).reduceOption) =
      [1, 2, 3, 4, 5, 6] := by
  norm_num [lastWindow, List.reduceOption, List.filterMap_cons]

theorem olsSlope_linear_example : olsSlope [(1 : ℝ), 2, 3, 4, 5, 6] = 1 := by
  norm_num [olsSlope, idxMap]

theorem olsIntercept_linear_example : olsIntercept [(1 : ℝ), 2, 3, 4, 5, 6] = 1 := by
  norm_num [olsIntercept, olsSlope_linear_example]

theorem fitResiduals_linear_example :
    fitResiduals [(1 : ℝ), 2, 3, 4, 5, 6] = [0, 0, 0, 0, 0, 0] := by
  norm_num [fitResiduals, idxMap, olsSlope_linear_example, olsIntercept_linear_example]

theorem flb_linear_example :
    forecast_linear_band [some 1, some 2, some 3, some 4, some 5, some 6] 6 3 2 =
      Except.ok ([7, 8, 9], [7, 8, 9], [7, 8, 9]) := by
  have hhw : bandHalfWidth [(1 : ℝ), 2, 3, 4, 5, 6] 2 = 0 := by
    rw [bandHalfWidth, fitResiduals_linear_example]
    norm_num [popVar, Real.sqrt_zero]
  have hfc : linForecasts [(1 : ℝ), 2, 3, 4, 5, 6] 6 3 = [7, 8, 9] := by
    norm_num [linForecasts, List.range_succ, olsSlope_linear_example,
      olsIntercept_linear_example]
  unfold forecast_linear_band
  rw [if_neg (by norm_num), if_neg (by norm_num), if_neg (by norm_num),
    if_neg (by norm_num), if_neg (by simp [lastWindow])]
  rw [reduceOption_linear_example, hfc, hhw]
  norm_num

theorem olsSlope_flat : olsSlope [(1 : ℝ), 1, 1] = 0 := by
  norm_num [olsSlope, idxMap]

theorem olsIntercept_flat : olsIntercept [(1 : ℝ), 1, 1] = 1 := by
  norm_num [olsIntercept, olsSlope_flat]

theorem fitResiduals_flat : fitResiduals [(1 : ℝ), 1, 1] = [0, 0, 0] := by
  norm_num [fitResiduals, idxMap, olsSlope_flat, olsIntercept_flat]

theorem linScale_flat : linScale [(1 : ℝ), 1, 1] false = 0 := by
  rw [linScale]
  simp only [Bool.false_eq_true, if_false]
  rw [fitResiduals_flat]
  norm_num [popVar, Real.sqrt_zero]

theorem olsSlope_spike : olsSlope [(1 : ℝ), 1, 10] = 9 / 2 := by
  norm_num [olsSlope, idxMap]

theorem olsIntercept_spike : olsIntercept [(1 : ℝ), 1, 10] = -(1 / 2) := by
  norm_num [olsIntercept, olsSlope_spike]

theorem fitResiduals_spike :
    fitResiduals [(1 : ℝ), 1, 10] = [3 / 2, -3, 3 / 2] := by
  norm_num [fitResiduals, idxMap, olsSlope_spike, olsIntercept_spike]

theorem linScale_spike : linScale [(1 : ℝ), 1, 10] false = Real.sqrt (9 / 2) := by
  rw [linScale]
  simp only [Bool.false_eq_true, if_false]
  rw [fitResiduals_spike]
  norm_num [popVar]

theorem olsSlope_after : olsSlope [(1 : ℝ), 10, 1] = 0 := by
  norm_num [olsSlope, idxMap]

theorem olsIntercept_after : olsIntercept [(1 : ℝ), 10, 1] = 4 := by
  norm_num [olsIntercept, olsSlope_after]

theorem fitResiduals_after :
    fitResiduals [(1 : ℝ), 10, 1] = [-3, 6, -3] := by
  norm_num [fitResiduals, idxMap, olsSlope_after, olsIntercept_after]

theorem linScale_after : linScale [(1 : ℝ), 10, 1] false = Real.sqrt 18 := by
  rw [linScale]
  simp only [Bool.false_eq_true, if_false]
  rw [fitResiduals_after]
  norm_num [popVar]

theorem spike_probe0 : linProbe [(1 : ℝ), 1, 1, 1, 10, 1, 1] 3 2.5 false 0 = none := by
  unfold linProbe
  rw [if_pos (by norm_num)]

theorem spike_probe1 : linProbe [(1 : ℝ), 1, 1, 1, 10, 1, 1] 3 2.5 false 1 = none := by
  unfold linProbe
  rw [if_pos (by norm_num)]

theorem spike_probe2 : linProbe [(1 : ℝ), 1, 1, 1, 10, 1, 1] 3 2.5 false 2 = none := by
  unfold linProbe
  rw [if_pos (by norm_num)]

theorem spike_probe3 : linProbe [(1 : ℝ), 1, 1, 1, 10, 1, 1] 3 2.5 false 3 = none := by
  apply linProbe_of_scale_zero
  have hwb : windowBefore [(1 : ℝ), 1, 1, 1, 10, 1, 1] 3 3 = [1, 1, 1] := by
    norm_num [windowBefore]
  rw [hwb, linScale_flat]

theorem spike_probe4 : linProbe [(1 : ℝ), 1, 1, 1, 10, 1, 1] 3 2.5 false 4 = none := by
  apply linProbe_of_scale_zero
  have hwb : windowBefore [(1 : ℝ), 1, 1, 1, 10, 1, 1] 3 4 = [1, 1, 1] := by
    norm_num [windowBefore]
  rw [hwb, linScale_flat]

theorem spike_probe5 : linProbe [(1 : ℝ), 1, 1, 1, 10, 1, 1] 3 2.5 false 5 =
    some ⟨5, 1, 13, -12, 12 / Real.sqrt (9 / 2)⟩ := by
  have hwb : windowBefore [(1 : ℝ), 1, 1, 1, 10, 1, 1] 3 5 = [1, 1, 10] := by
    norm_num [windowBefore]
  have hsc : linScale (windowBefore [(1 : ℝ), 1, 1, 1, 10, 1, 1] 3 5) false =
      Real.sqrt (9 / 2) := by
    rw [hwb, linScale_spike]
  have hexp : linExpectedAt [(1 : ℝ), 1, 1, 1, 10, 1, 1] 3 5 = 13 := by
    rw [linExpectedAt, hwb, olsSlope_spike, olsIntercept_spike]
    norm_num
  have hres : linResidualAt [(1 : ℝ), 1, 1, 1, 10, 1, 1] 3 5 = -12 := by
    rw [linResidualAt, hexp]
    norm_num [List.getD]
  have hsp : (0 : ℝ) < Real.sqrt (9 / 2) := Real.sqrt_pos.mpr (by norm_num)
  have habs : |linResidualAt [(1 : ℝ), 1, 1, 1, 10, 1, 1] 3 5| = 12 := by
    rw [hres]
    norm_num
  have hgt : (2.5 : ℝ) < 12 / Real.sqrt (9 / 2) := by
    rw [lt_div_iff₀ hsp]
    have hlt : Real.sqrt (9 / 2) < 24 / 5 := by
      rw [Real.sqrt_lt' (by norm_num)]
      norm_num
    linarith
  unfold linProbe
  rw [if_neg (by norm_num),
    if_neg (by rw [hsc]; exact Real.sqrt_ne_zero'.mpr (by norm_num)),
    if_pos (by rw [habs, hsc]; exact hgt)]
  rw [hexp, habs, hsc, hres]
  norm_num [List.getD]

theorem spike_probe6 : linProbe [(1 : ℝ), 1, 1, 1, 10, 1, 1] 3 2.5 false 6 = none := by
  have hwb : windowBefore [(1 : ℝ), 1, 1, 1, 10, 1, 1] 3 6 = [1, 10, 1] := by
    norm_num [windowBefore]
  have hsc : linScale (windowBefore [(1 : ℝ), 1, 1, 1, 10, 1, 1] 3 6) false =
      Real.sqrt 18 := by
    rw [hwb, linScale_after]
  have hexp : linExpectedAt [(1 : ℝ), 1, 1, 1, 10, 1, 1] 3 6 = 4 := by
    rw [linExpectedAt, hwb, olsSlope_after, olsIntercept_after]
    norm_num
  have hres : linResidualAt [(1 : ℝ), 1, 1, 1, 10, 1, 1] 3 6 = -3 := by
    rw [linResidualAt, hexp]
    norm_num [List.getD]
  have habs : |linResidualAt [(1 : ℝ), 1, 1, 1, 10, 1, 1] 3 6| = 3 := by
    rw [hres]
    norm_num
  have hsp : (0 : ℝ) < Real.sqrt 18 := Real.sqrt_pos.mpr (by norm_num)
  have hle : (3 : ℝ) / Real.sqrt 18 ≤ 2.5 := by
    rw [div_le_iff₀ hsp]
    have hge : (6 / 5 : ℝ) ≤ Real.sqrt 18 :=
      (Real.le_sqrt (by norm_num) (by norm_num)).mpr (by norm_num)
    linarith
  unfold linProbe
  rw [if_neg (by norm_num),
    if_neg (by rw [hsc]; exact Real.sqrt_ne_zero'.mpr (by norm_num)),
    if_neg (by rw [habs, hsc]; exact not_lt.mpr hle)]

theorem detect_spike_full :
    detect_linear_anomalies [(1 : ℝ), 1, 1, 1, 10, 1, 1] 3 2.5 false =
      [⟨5, 1, 13, -12, 12 / Real.sqrt (9 / 2)⟩] := by
  unfold detect_linear_anomalies
  have h7 : List.range (List.length [(1 : ℝ), 1, 1, 1, 10, 1, 1]) =
      [0, 1, 2, 3, 4, 5, 6] := by
    norm_num [List.range_succ]
  rw [h7]
  simp only [List.filterMap_cons, List.filterMap_nil, spike_probe0, spike_probe1,
    spike_probe2, spike_probe3, spike_probe4, spike_probe5, spike_probe6]

/-! ## Claim theorems -/

/-- C1: forecast_linear_band continues an exactly linear series and
returns a degenerate band: on [1, 2, 3, 4, 5, 6] with window 6, horizon
3, k 2 it returns forecast [7, 8, 9] with lower = upper = forecast, and
in general zero in-window fit residuals force lower = upper =
forecast. -/
theorem linear_band_zero_residual_claim :
    (forecast_linear_band [some 1, some 2, some 3, some 4, some 5, some 6] 6 3 2 =
      Except.ok ([7, 8, 9], [7, 8, 9], [7, 8, 9])) ∧
    ∀ (series : List (Option ℝ)) (window horizon : ℕ) (k : ℝ) (f lo hi : List ℝ),
      forecast_linear_band series window horizon k = Except.ok (f, lo, hi) →
      (∀ r ∈ fitResiduals ((lastWindow series window).reduceOption), r = 0) →
      lo = f ∧ hi = f := by
  refine ⟨flb_linear_example, ?_⟩
  intro series window horizon k f lo hi hok hres
  unfold forecast_linear_band at hok
  split_ifs at hok with h1 h2 h3 h4 h5
  cases hok
  have hvar : popVar (fitResiduals ((lastWindow series window).reduceOption)) = 0 :=
    popVar_of_zero hres
  have hhw : bandHalfWidth ((lastWindow series window).reduceOption) k = 0 := by
    rw [bandHalfWidth, hvar, Real.sqrt_zero, mul_zero]
  rw [hhw]
  constructor <;> simp

/-- C1 witness: the zero-residual consequence applied on the concrete
exactly linear series. -/
theorem linear_band_zero_residual_witness :
    ∃ f lo hi,
      forecast_linear_band [some 1, some 2, some 3, some 4, some 5, some 6] 6 3 2 =
        Except.ok (f, lo, hi) ∧ lo = f ∧ hi = f := by
  refine ⟨[7, 8, 9], [7, 8, 9], [7, 8, 9],
    linear_band_zero_residual_claim.1, ?_⟩
  apply linear_band_zero_residual_claim.2 _ 6 3 2 _ _ _
    linear_band_zero_residual_claim.1
  intro r hr
  rw [reduceOption_linear_example, fitResiduals_linear_example] at hr
  simpa using hr

/-- C7: detect_ts_anomalies never propagates a model-fitting failure: a
failed fit (non-convergence, degenerate series) or a series shorter than
two seasonal periods yields the empty anomaly table instead of an
unhandled failure. -/
theorem ts_anomalies_recoverable (fitResid : List ℝ → Option (List ℝ))
    (series : List ℝ) (threshold : ℝ) (seasonal_periods : ℕ) :
    (fitResid series = none →
      detect_ts_anomalies fitResid series threshold seasonal_periods = []) ∧
    (series.length < 2 * seasonal_periods →
      detect_ts_anomalies fitResid series threshold seasonal_periods = []) := by
  constructor
  · intro h
    unfold detect_ts_anomalies
    split_ifs with hlen
    · rfl
    · rw [h]
  · intro h
    unfold detect_ts_anomalies
    rw [if_pos h]

/-- C7 witness: a concrete failing fitter and a concrete too-short series
both produce the empty table. -/
theorem ts_anomalies_recoverable_witness :
    detect_ts_anomalies (fun _ => none) [1, 2, 3] 1 0 = [] ∧
    detect_ts_anomalies (fun _ => some [0, 0, 0]) [1, 2, 3] 1 2 = [] :=
  ⟨(ts_anomalies_recoverable (fun _ => none) [1, 2, 3] 1 0).1 rfl,
    (ts_anomalies_recoverable (fun _ => some [0, 0, 0]) [1, 2, 3] 1 2).2
      (by norm_num)⟩

/-- C5: forecast_linear_band succeeds exactly when 2 <= window <=
len(series), horizon >= 1, k >= 0 and every value in the window is
finite; otherwise it returns a validation error and, the result being a
sum type, no partial output.  In particular the boundary
window = len(series) with otherwise valid arguments produces a fit. -/
theorem linear_band_validation_claim :
    (∀ (series : List (Option ℝ)) (window horizon : ℕ) (k : ℝ),
      (∃ out, forecast_linear_band series window horizon k = Except.ok out) ↔
        (2 ≤ window ∧ window ≤ series.length ∧ 1 ≤ horizon ∧ 0 ≤ k ∧
          ∀ v ∈ lastWindow series window, v.isSome = true)) ∧
    (∀ (series : List (Option ℝ)) (horizon : ℕ) (k : ℝ),
      2 ≤ series.length → 1 ≤ horizon → 0 ≤ k →
      (∀ v ∈ series, v.isSome = true) →
      ∃ out, forecast_linear_band series series.length horizon k =
        Except.ok out) := by
  have main : ∀ (series : List (Option ℝ)) (window horizon : ℕ) (k : ℝ),
      (∃ out, forecast_linear_band series window horizon k = Except.ok out) ↔
        (2 ≤ window ∧ window ≤ series.length ∧ 1 ≤ horizon ∧ 0 ≤ k ∧
          ∀ v ∈ lastWindow series window, v.isSome = true) := by
    intro series window horizon k
    unfold forecast_linear_band
    split_ifs with h1 h2 h3 h4 h5
    · exact iff_of_false (by rintro ⟨out, hout⟩; cases hout)
        (by rintro ⟨ha, -, -, -, -⟩; omega)
    · exact iff_of_false (by rintro ⟨out, hout⟩; cases hout)
        (by rintro ⟨-, hb, -, -, -⟩; omega)
    · exact iff_of_false (by rintro ⟨out, hout⟩; cases hout)
        (by rintro ⟨-, -, hc, -, -⟩; omega)
    · exact iff_of_false (by rintro ⟨out, hout⟩; cases hout)
        (by rintro ⟨-, -, -, hd, -⟩; exact absurd h4 (not_lt.mpr hd))
    · refine iff_of_false (by rintro ⟨out, hout⟩; cases hout) ?_
      rintro ⟨-, -, -, -, he⟩
      obtain ⟨v, hv, hvn⟩ := List.any_eq_true.mp h5
      have := he v hv
      rw [Option.isNone_iff_eq_none] at hvn
      rw [hvn] at this
      cases this
    · refine iff_of_true ⟨_, rfl⟩ ⟨by omega, by omega, by omega, not_lt.mp h4, ?_⟩
      intro v hv
      by_contra hns
      apply h5
      apply List.any_eq_true.mpr
      refine ⟨v, hv, ?_⟩
      cases v with
      | none => rfl
      | some x => exact absurd rfl hns
  refine ⟨main, fun series horizon k hlen hh hk hfin => ?_⟩
  refine (main series series.length horizon k).mpr
    ⟨hlen, le_refl _, hh, hk, ?_⟩
  intro v hv
  apply hfin
  unfold lastWindow at hv
  rw [Nat.sub_self, List.drop_zero] at hv
  exact hv

/-- C5 witness: the boundary window = len(series) on a concrete two-point
series produces a fit. -/
theorem linear_band_validation_witness :
    ∃ out, forecast_linear_band [some 1, some 2] 2 1 0 = Except.ok out := by
  have h := linear_band_validation_claim.2 [some 1, some 2] 1 0
    (by norm_num) (le_refl 1) (le_refl 0)
    (by intro v hv; simp only [List.mem_cons, List.not_mem_nil, or_false] at hv
        rcases hv with rfl | rfl <;> rfl)
  exact h

/-- C2: forecast_holt_linear implements the Holt linear recursion: level
initialized to the first observation, trend to the first difference, the
spec recursion folded over every subsequent observation, and the forecast
at step h equal to the final level plus h times the final trend; with
alpha = beta = 1 on [1, 2, 3, 4] and horizon 2 it returns [5, 6]. -/
theorem holt_linear_claim :
    (∀ (y0 y1 : ℝ) (rest : List ℝ) (alpha beta : ℝ) (horizon : ℕ),
      0 ≤ alpha → alpha ≤ 1 → 0 ≤ beta → beta ≤ 1 →
      forecast_holt_linear (y0 :: y1 :: rest) alpha beta horizon =
        Except.ok ((List.range horizon).map fun h : ℕ =>
          (holtPair alpha beta (y0, y1 - y0) (y1 :: rest)).1 +
            ((h : ℝ) + 1) * (holtPair alpha beta (y0, y1 - y0) (y1 :: rest)).2)) ∧
    forecast_holt_linear [1, 2, 3, 4] 1 1 2 = Except.ok [5, 6] := by
  constructor
  · intro y0 y1 rest alpha beta horizon ha0 ha1 hb0 hb1
    simp only [forecast_holt_linear]
    rw [if_neg (by push_neg; exact ⟨ha0, ha1, hb0, hb1⟩)]
    simp only [holt_foldl_eq]
  · simp only [forecast_holt_linear]
    rw [if_neg (by norm_num)]
    norm_num [List.foldl, List.range_succ]

/-- C2 witness: the recursion characterization applied at alpha = beta =
one half on the concrete series [1, 2, 3, 4] with horizon 2. -/
theorem holt_linear_witness :
    forecast_holt_linear [1, 2, 3, 4] 0.5 0.5 2 =
      Except.ok ((List.range 2).map fun h : ℕ =>
        (holtPair 0.5 0.5 (1, 2 - 1) [2, 3, 4]).1 +
          ((h : ℝ) + 1) * (holtPair 0.5 0.5 (1, 2 - 1) [2, 3, 4]).2) :=
  holt_linear_claim.1 1 2 [3, 4] 0.5 0.5 2 (by norm_num) (by norm_num)
    (by norm_num) (by norm_num)

/-- C3: band_from_moving_stats forecasts the window mean flat over the
horizon: on [1, 2, 3, 4, 5, 6] with window 3, horizon 2, k 1 the forecast
is [5, 5], and whenever k and the windowed standard deviation are
positive the band strictly brackets the forecast at the first step. -/
theorem moving_stats_claim :
    (∃ lo hi, band_from_moving_stats [1, 2, 3, 4, 5, 6] 3 2 1 =
        Except.ok ([5, 5], lo, hi)) ∧
    ∀ (series : List ℝ) (window horizon : ℕ) (k : ℝ) (f lo hi : List ℝ),
      band_from_moving_stats series window horizon k = Except.ok (f, lo, hi) →
      0 < k → 0 < Real.sqrt (popVar (lastWindow series window)) →
      1 ≤ horizon →
      lo.getD 0 0 < f.getD 0 0 ∧ f.getD 0 0 < hi.getD 0 0 := by
  constructor
  · have hb : band_from_moving_stats [1, 2, 3, 4, 5, 6] 3 2 1 =
        Except.ok
          (List.replicate 2 (movingMean (lastWindow [1, 2, 3, 4, 5, 6] 3)),
            List.replicate 2 (movingMean (lastWindow [1, 2, 3, 4, 5, 6] 3) -
              1 * Real.sqrt (popVar (lastWindow [1, 2, 3, 4, 5, 6] 3))),
            List.replicate 2 (movingMean (lastWindow [1, 2, 3, 4, 5, 6] 3) +
              1 * Real.sqrt (popVar (lastWindow [1, 2, 3, 4, 5, 6] 3)))) := by
      unfold band_from_moving_stats
      rw [if_neg (by norm_num), if_neg (by norm_num)]
    have hm : movingMean (lastWindow [1, 2, 3, 4, 5, 6] 3) = 5 := by
      norm_num [lastWindow, movingMean]
    refine ⟨List.replicate 2
        (5 - 1 * Real.sqrt (popVar (lastWindow [1, 2, 3, 4, 5, 6] 3))),
      List.replicate 2
        (5 + 1 * Real.sqrt (popVar (lastWindow [1, 2, 3, 4, 5, 6] 3))), ?_⟩
    rw [hb, hm]
    norm_num [List.replicate]
  · intro series window horizon k f lo hi hok hk hsd hh
    unfold band_from_moving_stats at hok
    split_ifs at hok with h1 h2
    cases hok
    have hw : 0 < k * Real.sqrt (popVar (lastWindow series window)) :=
      mul_pos hk hsd
    cases horizon with
    | zero => omega
    | succ n =>
        simp only [List.replicate_succ, List.getD_cons_zero]
        constructor <;> linarith

/-- C3 witness: on the concrete series the windowed deviation is positive
and the first-step band strictly brackets the forecast. -/
theorem moving_stats_witness :
    ∃ f lo hi, band_from_moving_stats [1, 2, 3, 4, 5, 6] 3 2 1 =
        Except.ok (f, lo, hi) ∧
      lo.getD 0 0 < f.getD 0 0 ∧ f.getD 0 0 < hi.getD 0 0 := by
  have hb : band_from_moving_stats [1, 2, 3, 4, 5, 6] 3 2 1 =
      Except.ok
        (List.replicate 2 (movingMean (lastWindow [1, 2, 3, 4, 5, 6] 3)),
          List.replicate 2 (movingMean (lastWindow [1, 2, 3, 4, 5, 6] 3) -
            1 * Real.sqrt (popVar (lastWindow [1, 2, 3, 4, 5, 6] 3))),
          List.replicate 2 (movingMean (lastWindow [1, 2, 3, 4, 5, 6] 3) +
            1 * Real.sqrt (popVar (lastWindow [1, 2, 3, 4, 5, 6] 3)))) := by
    unfold band_from_moving_stats
    rw [if_neg (by norm_num), if_neg (by norm_num)]
  have hsd : 0 < Real.sqrt (popVar (lastWindow [1, 2, 3, 4, 5, 6] 3)) := by
    apply Real.sqrt_pos.mpr
    norm_num [lastWindow, popVar]
  refine ⟨_, _, _, hb, ?_⟩
  exact (moving_stats_claim.2 [1, 2, 3, 4, 5, 6] 3 2 1 _ _ _ hb
    (by norm_num) hsd (by norm_num))

/-- C6: in both anomaly entry points a zero dispersion scale never flags
and never fails: a point of detect_linear_anomalies whose window scale is
zero is absent from the table, and a residual series whose robust scale
is zero yields the empty table. -/
theorem zero_scale_never_flags (series : List ℝ) (window : ℕ) (threshold : ℝ)
    (robust : Bool) (t : ℕ) (resids : List ℝ) :
    (linScale (windowBefore series window t) robust = 0 →
      ∀ rec ∈ detect_linear_anomalies series window threshold robust,
        rec.month ≠ t) ∧
    (1.4826 * mad resids = 0 →
      scoreResiduals series resids threshold = []) := by
  constructor
  · intro hs rec hrec he
    obtain ⟨t', ht', hp⟩ := List.mem_filterMap.mp hrec
    have hm : rec.month = t' := linProbe_month hp
    rw [he] at hm
    rw [← hm] at hp
    rw [linProbe_of_scale_zero hs] at hp
    cases hp
  · intro hs
    unfold scoreResiduals
    rw [if_pos hs]

/-- C4: evaluation of the modelled detector on the test input [1, 1, 1,
1, 10, 1, 1] with window 3, threshold 2.5, robust off: exactly month 5 is
flagged, so the result is non-empty but does NOT contain month 4, the
month the claim and the repository test require; the fit window of month
4 is [1, 1, 1], which fits exactly, so its residual scale is zero and the
zero-scale guard of the spec suppresses the flag. -/
theorem detect_linear_spike_eval :
    (detect_linear_anomalies [1, 1, 1, 1, 10, 1, 1] 3 2.5 false).map
        AnomalyRecord.month = [5] ∧
    4 ∉ (detect_linear_anomalies [1, 1, 1, 1, 10, 1, 1] 3 2.5 false).map
        AnomalyRecord.month := by
  rw [detect_spike_full]
  exact ⟨rfl, by simp⟩

/-- C6 witness: a flat window makes the non-robust scale zero and its
point is not flagged, and an empty residual list makes the robust scale
zero and the score table empty. -/
theorem zero_scale_never_flags_witness :
    linScale (windowBefore [1, 1, 1, 1] 3 3) false = 0 ∧
    (∀ rec ∈ detect_linear_anomalies [1, 1, 1, 1] 3 2.5 false,
      rec.month ≠ 3) ∧
    scoreResiduals [1, 1, 1, 1] [] 2.5 = [] := by
  have hwb : windowBefore [(1 : ℝ), 1, 1, 1] 3 3 = [1, 1, 1] := by
    norm_num [windowBefore]
  have hs : linScale (windowBefore [(1 : ℝ), 1, 1, 1] 3 3) false = 0 := by
    rw [hwb, linScale_flat]
  have hmad : (1.4826 : ℝ) * mad [] = 0 := by
    norm_num [mad, median]
  exact ⟨hs, (zero_scale_never_flags [1, 1, 1, 1] 3 2.5 false 3 []).1 hs,
    (zero_scale_never_flags [1, 1, 1, 1] 3 2.5 false 3 []).2 hmad⟩

end RollingUp

namespace RollingUp

/-- C9 counterexample: with the requested language resolving the key to a
nested dictionary and English holding the string, the source returns the
raw key while the first-string-in-chain reading returns the English
string. -/
theorem translate_chain_counterexample :
    translate cexLocales [] "a" "ja" none = "a" ∧
    translateClaim cexLocales [] "a" "ja" = "hello" := by
  constructor <;> decide

/-- C9 amended: translate walks the fallback chain in order but consults
only the FIRST language whose document resolves the key at all: a string
there is returned, any other value abandons the chain for the legacy
document and then the raw key. -/
theorem translate_chain_amended (locales : Locales) (legacy : LocaleDict)
    (key lang : String) :
    translate locales legacy key lang none =
      match firstResolved locales key (fallback_sequence lang) with
      | some (LocaleValue.str s) => s
      | _ =>
          match legacyPhase legacy lang key with
          | some s => s
          | none => key := by
  have h : ∀ chain, localePhase locales key chain =
      match firstResolved locales key chain with
      | some (LocaleValue.str s) => some s
      | _ => none := by
    intro chain
    induction chain with
    | nil => rfl
    | cons c cs ih =>
        simp only [localePhase, firstResolved]
        cases hr : resolve_from_locale locales c key with
        | none => simpa using ih
        | some v => cases v <;> rfl
  unfold translate
  rw [h]
  cases hf : firstResolved locales key (fallback_sequence lang) with
  | none => rfl
  | some v => cases v <;> rfl

/-- C10: translate is total over strings: whenever no string translation
exists along the fallback chain nor in the legacy document, it returns
the caller-supplied default when one is given and the raw key otherwise
(and, being a total function into String, it never fails). -/
theorem translate_total_default_claim (locales : Locales) (legacy : LocaleDict)
    (key lang : String)
    (h1 : localeChainHasNoString locales key lang = true)
    (h2 : legacyHasNoString legacy key = true) :
    (∀ d : String, translate locales legacy key lang (some d) = d) ∧
    translate locales legacy key lang none = key := by
  have hl : localePhase locales key (fallback_sequence lang) = none := by
    apply localePhase_none
    intro c hc s hr
    unfold localeChainHasNoString at h1
    have := List.all_eq_true.mp h1 c hc
    rw [hr] at this
    simp [isStr] at this
  have hg := legacyPhase_none lang h2
  refine ⟨fun d => ?_, ?_⟩ <;> · unfold translate; rw [hl, hg]; rfl

/-- C10 witness: with no locale documents and no legacy document at all,
a missing key yields the supplied default, and the raw key without one. -/
theorem translate_total_default_witness :
    translate (fun _ => []) [] "k" "ja" (some "d") = "d" ∧
    translate (fun _ => []) [] "k" "ja" none = "k" := by
  have h := translate_total_default_claim (fun _ => []) [] "k" "ja"
    (by decide) (by decide)
  exact ⟨h.1 "d", h.2⟩

end RollingUp
